import Mathlib

/-
Shallow embedding of src/main.rs (a small CLI that lists git remotes, lets
the user pick one, rewrites SSH-style URLs to HTTPS and opens a browser).
Rust strings are modelled as `List Char`; the interactive loop is modelled
by passing the finite list of lines available on standard input and
returning the produced standard-output lines and standard-error events.
-/

/-- Error kinds of Rust's integer parsing (`<usize as FromStr>::Err`):
empty input, an invalid digit, or positive overflow past `usize::MAX`. -/
inductive ParseIntError where
  | empty
  | invalidDigit
  | posOverflow
  deriving DecidableEq, Repr

/-- Model of Rust `str::trim`: remove whitespace from both ends
(ASCII whitespace suffices for the inputs this program sees). -/
def rustTrim (l : List Char) : List Char :=
  ((l.dropWhile Char.isWhitespace).reverse.dropWhile Char.isWhitespace).reverse

/-- Digit-accumulation loop of Rust `usize::from_str` (base 10): reject a
non-digit with `invalidDigit`, reject a value reaching `2 ^ 64` with
`posOverflow`, otherwise accumulate. -/
def parseDigitsLoop : Nat → List Char → Except ParseIntError Nat
  | acc, [] => Except.ok acc
  | acc, c :: rest =>
    if c.isDigit then
      let v := acc * 10 + (c.toNat - '0'.toNat)
      if v < 2 ^ 64 then parseDigitsLoop v rest else Except.error ParseIntError.posOverflow
    else Except.error ParseIntError.invalidDigit

/-- Model of `str::parse::<usize>` (src/main.rs line 21): empty string is
`empty`; a bare sign is `invalidDigit`; a leading `+` is stripped; a `-` on
an unsigned target is an invalid digit; then base-10 digits. -/
def parseUsize : List Char → Except ParseIntError Nat
  | [] => Except.error ParseIntError.empty
  | ['+'] => Except.error ParseIntError.invalidDigit
  | '+' :: rest => parseDigitsLoop 0 rest
  | '-' :: _ => Except.error ParseIntError.invalidDigit
  | l => parseDigitsLoop 0 l

/-- Prompt printed by each iteration of the selection loop
(src/main.rs line 18). -/
def promptLine : List Char := "Choose a number from above: ".toList

/-- Menu lines printed by the `for` loop in `select_from_list`
(src/main.rs lines 13-15): one line per candidate, 0-based index. -/
def menuLines (choices : List (List Char)) : List (List Char) :=
  choices.enum.map (fun p => (toString p.1).toList ++ (':' :: ' ' :: p.2))

/-- Body of the `loop` in `select_from_list` (src/main.rs lines 17-32).
State is the `remaining` content of the (single, shared) iterator and the
lines still available on standard input.  Each iteration prints the
prompt, reads one line, trims and parses it; on a parsed number `num` it
takes `nth num` from the iterator (which consumes `num + 1` elements,
modelled with `List.drop`), returning the element if present and silently
looping otherwise; on a parse error it writes the error to standard error
and loops.  Result: (returned choice if any, stdout lines, stderr events);
`none` means the loop did not return within the provided input lines. -/
def selectLoop : List (List Char) → List (List Char) →
    Option (List Char) × List (List Char) × List ParseIntError
  | _, [] => (none, [], [])
  | remaining, inp :: rest =>
    match parseUsize (rustTrim inp) with
    | Except.ok num =>
      match remaining.get? num with
      | some c => (some c, [promptLine], [])
      | none =>
        let r := selectLoop (remaining.drop (num + 1)) rest
        (r.1, promptLine :: r.2.1, r.2.2)
    | Except.error e =>
      let r := selectLoop remaining rest
      (r.1, promptLine :: r.2.1, e :: r.2.2)

/-- Model of `select_from_list` (src/main.rs lines 8-33).  The `for` loop
prints the enumerated menu and thereby drains the iterator, so the loop
that resolves the user's number starts from the already-exhausted
iterator state `choices.drop choices.length` (that is, `[]`). -/
def select_from_list (choices : List (List Char)) (inputs : List (List Char)) :
    Option (List Char) × List (List Char) × List ParseIntError :=
  let r := selectLoop (choices.drop choices.length) inputs
  (r.1, menuLines choices ++ r.2.1, r.2.2)

/-- Model of `choose_remote_url` (src/main.rs lines 35-44).  `order` is the
iteration order of the `HashSet`; the match on `urls.len()` becomes a match
on the list shape.  Result component 1 is the returned value (`none` when
the selection loop never returns), components 2 and 3 the stdout/stderr
traffic. -/
def choose_remote_url (order : List (List Char)) (inputs : List (List Char)) :
    Option (Except (List Char) (List Char)) × List (List Char) × List ParseIntError :=
  match order with
  | [] => (some (Except.error ("No URL found".toList)), [], [])
  | [u] => (some (Except.ok u), [], [])
  | _ =>
    let r := select_from_list order inputs
    (r.1.map Except.ok, r.2.1, r.2.2)

/-- Split a list at every occurrence of `c`, keeping empty pieces
(helper for modelling `str::lines`). -/
def splitOnChar (c : Char) : List Char → List (List Char)
  | [] => [[]]
  | x :: xs =>
    match splitOnChar c xs with
    | [] => [[]]
    | h :: t => if x = c then [] :: h :: t else (x :: h) :: t

/-- Strip one trailing carriage return, as `str::lines` does to every line
that was terminated by a newline. -/
def stripCr (l : List Char) : List Char :=
  if l.getLast? = some '\r' then l.dropLast else l

/-- Model of Rust `str::lines` (src/main.rs line 59): split at newline
characters; every piece that was followed by a newline loses one trailing
carriage return; a final empty piece (trailing newline) is dropped, and a
final non-empty piece is kept untouched. -/
def rustLines (s : List Char) : List (List Char) :=
  let pieces := splitOnChar '\n' s
  pieces.dropLast.map stripCr ++
    (match pieces.getLast? with
     | some [] => []
     | some l => [l]
     | none => [])

/-- Accumulator loop for `str::split_whitespace`: `cur` holds the current
token reversed. -/
def splitWsAux : List Char → List Char → List (List Char)
  | cur, [] => if cur = [] then [] else [cur.reverse]
  | cur, c :: rest =>
    if c.isWhitespace then
      if cur = [] then splitWsAux [] rest else cur.reverse :: splitWsAux [] rest
    else splitWsAux (c :: cur) rest

/-- Model of Rust `str::split_whitespace` (src/main.rs line 60): the
maximal whitespace-free tokens, in order, with no empty tokens. -/
def split_whitespace (l : List Char) : List (List Char) :=
  splitWsAux [] l

/-- Model of `urls_from_output` (src/main.rs lines 56-62): for each line of
the captured `git remote --verbose` output take the second
whitespace-separated field if it exists, and collect the results into a
set (the `HashSet` is modelled as a `Finset`). -/
def urls_from_output (out : List Char) : Finset (List Char) :=
  ((rustLines out).filterMap (fun line => (split_whitespace line).get? 1)).toFinset

/-- Model of `str::splitn(2, c)` restricted to its two relevant answers:
`none` when `c` does not occur (one single piece), otherwise the pieces
before and after the first occurrence of `c`. -/
def splitFirst (c : Char) : List Char → Option (List Char × List Char)
  | [] => none
  | x :: xs =>
    if x = c then some ([], xs)
    else
      match splitFirst c xs with
      | none => none
      | some p => some (x :: p.1, p.2)

/-- Model of `format_url` (src/main.rs lines 64-77): if the URL contains a
colon, split it at the first colon into `user_and_domain` and `path`; if
`user_and_domain` contains an `@`, the part after the first `@` is the
domain; when both domain and path are non-empty the result is
`https://` ++ domain ++ `/` ++ path, otherwise the input is returned
unchanged. -/
def format_url (url : List Char) : List Char :=
  match splitFirst ':' url with
  | none => url
  | some (userAndDomain, path) =>
    match splitFirst '@' userAndDomain with
    | none => url
    | some p =>
      if p.2 ≠ [] ∧ path ≠ [] then "https://".toList ++ p.2 ++ '/' :: path
      else url

/-- Modelled from the spec's words (section 4.4), for comparison with the
source-derived `format_url`: split at the first colon via
`takeWhile`/`dropWhile`, take what follows the first `@` of the colon
prefix as the domain, rewrite only when domain and path are non-empty. -/
def formatUrlSpec (url : List Char) : List Char :=
  if ':' ∈ url then
    let pre := url.takeWhile (fun c => c ≠ ':')
    let path := (url.dropWhile (fun c => c ≠ ':')).tail
    if '@' ∈ pre then
      let dom := (pre.dropWhile (fun c => c ≠ '@')).tail
      if dom ≠ [] ∧ path ≠ [] then "https://".toList ++ dom ++ '/' :: path
      else url
    else url
  else url

/-- Panic message of the `unimplemented!` arm of `open_url`
(src/main.rs line 86). -/
def unimplementedMsg : List Char :=
  "not implemented: so far this only works on Mac or Linux".toList

/-- Outcome of `open_url` (src/main.rs lines 79-89): `ok st` when the
spawned command ran and exited with status `st` (the `Ok(ExitStatus)`
return), `execError m` when the command could not be spawned (the `?` on
`status()`), `panicked m` for the `unimplemented!` arm. -/
inductive OpenResult where
  | ok (status : Nat)
  | execError (msg : List Char)
  | panicked (msg : List Char)
  deriving DecidableEq, Repr

/-- Model of `open_url` (src/main.rs lines 79-89): on `macos` spawn
`open url`; on `linux` spawn `$BROWSER url` defaulting to `firefox`; on
any other platform panic with `unimplemented!`.  `spawn cmd arg` models
`Command::status`: `Except.ok st` is a child that ran and exited with
status `st`, `Except.error m` a spawn failure. -/
def open_url (os : List Char) (browserEnv : Option (List Char))
    (spawn : List Char → List Char → Except (List Char) Nat) (url : List Char) : OpenResult :=
  if os = "macos".toList then
    match spawn ("open".toList) url with
    | Except.ok st => OpenResult.ok st
    | Except.error m => OpenResult.execError m
  else if os = "linux".toList then
    match spawn (browserEnv.getD ("firefox".toList)) url with
    | Except.ok st => OpenResult.ok st
    | Except.error m => OpenResult.execError m
  else OpenResult.panicked unimplementedMsg

/-- Observable outcome of running `main` (src/main.rs lines 91-97):
`success` is `Ok(())` (process exit code 0), `failure m` is `Err(m)`
(Rust prints the message and exits 1), `panicked m` is a panic (Rust
prints the message and exits 101), `blocked` means the selection loop
never returned within the provided standard-input lines. -/
inductive MainOutcome where
  | success
  | failure (msg : List Char)
  | panicked (msg : List Char)
  | blocked
  deriving DecidableEq, Repr

/-- Process exit code of each `MainOutcome` under the Rust runtime
(`Result`-returning `main`: `Ok` exits 0, `Err` exits 1; a panic exits
101); `none` when the process never exits. -/
def MainOutcome.exitCode : MainOutcome → Option Nat
  | MainOutcome.success => some 0
  | MainOutcome.failure _ => some 1
  | MainOutcome.panicked _ => some 101
  | MainOutcome.blocked => none

/-- Model of `main` (src/main.rs lines 91-97): capture the git output
(`gitOut`, with `Except.error` a failed `git_output`), extract the URL
set, choose one URL (with `enum` giving the `HashSet` iteration order of
a set and `inputs` the available standard-input lines), format it and
open the browser; the browser's exit status is discarded. -/
def main_model (gitOut : Except (List Char) (List Char))
    (enum : Finset (List Char) → List (List Char))
    (inputs : List (List Char)) (os : List Char) (browserEnv : Option (List Char))
    (spawn : List Char → List Char → Except (List Char) Nat) : MainOutcome :=
  match gitOut with
  | Except.error e => MainOutcome.failure e
  | Except.ok out =>
    match (choose_remote_url (enum (urls_from_output out)) inputs).1 with
    | none => MainOutcome.blocked
    | some (Except.error e) => MainOutcome.failure e
    | some (Except.ok url) =>
      match open_url os browserEnv spawn (format_url url) with
      | OpenResult.ok _ => MainOutcome.success
      | OpenResult.execError m => MainOutcome.failure m
      | OpenResult.panicked m => MainOutcome.panicked m

/-- Standard-error event produced by one input line of the selection loop:
the parse error if parsing the trimmed line fails, nothing otherwise. -/
def errOf (inp : List Char) : Option ParseIntError :=
  match parseUsize (rustTrim inp) with
  | Except.error e => some e
  | Except.ok _ => none

/-- The four-line `git remote --verbose` text of the repository's own
`test_urls_from_output` test: two remotes, each with a fetch and a push
line, pointing at two distinct SSH URLs. -/
def gitRemoteOutput : List Char :=
  ("n8henrie  git@gitlab.com:n8henrie/git-repo.git (fetch)\n" ++
   "n8henrie  git@gitlab.com:n8henrie/git-repo.git (push)\n" ++
   "origin  git@github.com:n8henrie/git-repo.git (fetch)\n" ++
   "origin  git@github.com:n8henrie/git-repo.git (push)").toList

/-- After the menu loop the iterator is empty, so every iteration of the
selection loop fails to resolve the parsed number: the loop never returns
a choice, prints one prompt per input line, and writes to standard error
exactly the parse errors of the input lines. -/
theorem selectLoop_nil (inputs : List (List Char)) :
    selectLoop [] inputs =
      (none, inputs.map (fun _ => promptLine), inputs.filterMap errOf) := by
  induction inputs with
  | nil => rfl
  | cons inp rest ih =>
    cases h : parseUsize (rustTrim inp) with
    | ok num => simp [selectLoop, h, errOf, ih, List.drop_nil]
    | error e => simp [selectLoop, h, errOf, ih]

/-- Characterization of `splitFirst`: it answers `none` exactly when the
character does not occur, and otherwise splits at the first occurrence,
computed by `takeWhile` and `dropWhile`. -/
theorem splitFirst_eq (c : Char) (l : List Char) :
    splitFirst c l =
      if c ∈ l then
        some (l.takeWhile (fun x => x ≠ c), (l.dropWhile (fun x => x ≠ c)).tail)
      else none := by
  induction l with
  | nil => simp [splitFirst]
  | cons x xs ih =>
    by_cases hx : x = c
    · subst hx
      simp [splitFirst, List.takeWhile_cons, List.dropWhile_cons]
    · rw [splitFirst, if_neg hx, ih]
      by_cases hc : c ∈ xs
      · have hcx : c ∈ x :: xs := List.mem_cons_of_mem x hc
        simp [hc, hcx, List.takeWhile_cons, List.dropWhile_cons, hx, Ne.symm hx]
      · have hcx : c ∉ x :: xs := by
          intro h
          rcases List.mem_cons.1 h with h' | h'
          · exact hx h'.symm
          · exact hc h'
        simp [hc, hcx]

/-- Any list starting with the six characters `https:` is a fixed point of
`format_url`: the part before the first colon is `https`, which contains
no `@`, so the URL is returned unchanged. -/
theorem format_url_https (rest : List Char) :
    format_url ('h' :: 't' :: 't' :: 'p' :: 's' :: ':' :: rest) =
      'h' :: 't' :: 't' :: 'p' :: 's' :: ':' :: rest := by
  have h1 : splitFirst ':' ('h' :: 't' :: 't' :: 'p' :: 's' :: ':' :: rest) =
      some (['h', 't', 't', 'p', 's'], rest) := by
    simp [splitFirst]
  have h2 : splitFirst '@' (['h', 't', 't', 'p', 's']) = none := by
    simp [splitFirst]
  simp [format_url, h1, h2]

/-- Every output of `format_url` is either the input itself or of the form
`https://` ++ domain ++ `/` ++ path with a non-empty domain. -/
theorem format_url_result (url : List Char) :
    format_url url = url ∨
      ∃ dom path, format_url url =
        'h' :: 't' :: 't' :: 'p' :: 's' :: ':' :: '/' :: '/' :: (dom ++ '/' :: path) := by
  unfold format_url
  split
  · exact Or.inl rfl
  · split
    · exact Or.inl rfl
    · split
      · exact Or.inr ⟨_, _, rfl⟩
      · exact Or.inl rfl

/-- Claim C2: `format_url` is a pure function that, for every input, splits
at the first colon, takes what follows the first `@` of the colon prefix as
the domain, and returns `https://` ++ domain ++ `/` ++ path when domain and
path are non-empty, returning the input unchanged in every other case
(equality with the spec-worded `formatUrlSpec`); in particular the three
concrete examples of the claim hold. -/
theorem format_url_follows_spec :
    (∀ url, format_url url = formatUrlSpec url) ∧
    format_url ("git@github.com:owner/repo.git".toList) =
      "https://github.com/owner/repo.git".toList ∧
    format_url ("git@gitlab.com:owner/repo.git".toList) =
      "https://gitlab.com/owner/repo.git".toList ∧
    format_url ("https://gitlab.com/owner/repo.git".toList) =
      "https://gitlab.com/owner/repo.git".toList := by
  refine ⟨?_, by decide, by decide, by decide⟩
  intro url
  by_cases h : ':' ∈ url
  · by_cases h2 : '@' ∈ url.takeWhile (fun x => x ≠ ':')
    · simp only [ne_eq, decide_not] at h2
      simp [format_url, formatUrlSpec, splitFirst_eq, h, h2]
    · simp only [ne_eq, decide_not] at h2
      simp [format_url, formatUrlSpec, splitFirst_eq, h, h2]
  · simp [format_url, formatUrlSpec, splitFirst_eq, h]

/-- Claim C6: `format_url` is idempotent on every input already of the form
`https://` ++ host ++ `/` ++ path. -/
theorem format_url_idem_on_https (host path : List Char) :
    format_url (format_url ("https://".toList ++ host ++ '/' :: path)) =
      format_url ("https://".toList ++ host ++ '/' :: path) := by
  have habbr : ("https://".toList : List Char) =
      ['h', 't', 't', 'p', 's', ':', '/', '/'] := rfl
  simp only [habbr, List.cons_append, List.nil_append]
  rw [format_url_https, format_url_https]

/-- Claim C10: `format_url` is idempotent on every string, since any
rewritten output starts with `https:` whose part before the first colon
contains no `@`. -/
theorem format_url_idempotent (url : List Char) :
    format_url (format_url url) = format_url url := by
  rcases format_url_result url with h | ⟨dom, path, h⟩
  · rw [h]
    exact h
  · rw [h]
    exact format_url_https _

set_option maxRecDepth 16384

/-- Claim C3: URL extraction takes, for each line of the remote listing,
the second whitespace-separated field, silently skipping lines with fewer
than two fields, and collects the results into a set of unique strings;
on the four-line two-remote fetch/push listing it yields exactly the two
distinct SSH URLs, each once. -/
theorem urls_from_output_spec :
    (∀ out u, u ∈ urls_from_output out ↔
      ∃ line, line ∈ rustLines out ∧ (split_whitespace line).get? 1 = some u) ∧
    urls_from_output gitRemoteOutput =
      {"git@gitlab.com:n8henrie/git-repo.git".toList,
       "git@github.com:n8henrie/git-repo.git".toList} := by
  constructor
  · intro out u
    simp [urls_from_output, List.mem_filterMap, List.mem_toFinset]
  · decide

/-- Claim C4: on the empty candidate set `choose_remote_url` fails with the
not-found error (message `No URL found`), returns no URL, and performs no
input/output. -/
theorem choose_remote_url_empty_fails :
    ∀ inputs, choose_remote_url [] inputs =
      (some (Except.error ("No URL found".toList)), [], []) :=
  fun _ => rfl

/-- Claim C5: on a candidate set of size exactly one, `choose_remote_url`
returns that single URL directly, with empty stdout and stderr traces and
a result independent of the available input lines: no prompt and no
input/output interaction. -/
theorem choose_remote_url_single_direct :
    ∀ u inputs, choose_remote_url [u] inputs = (some (Except.ok u), [], []) :=
  fun _ _ => rfl

/-- Claim C1 (code bug evidence): the selection loop can never resolve any
entered index, because the menu loop has already exhausted the shared
iterator; in particular, with the three candidates `a`, `b`, `c` and the
user entering `1`, `select_from_list` does not return the second candidate
(or any candidate at all) but re-prompts forever. -/
theorem select_from_list_never_selects :
    (∀ choices inputs, (select_from_list choices inputs).1 = none) ∧
    (select_from_list ["a".toList, "b".toList, "c".toList] ["1".toList]).1 = none := by
  have h : ∀ choices inputs, (select_from_list choices inputs).1 = none := by
    intro choices inputs
    simp [select_from_list, List.drop_length, selectLoop_nil]
  exact ⟨h, h _ _⟩

/-- Claim C7 (counterexample): with two candidates and the out-of-range
index `5` entered, the selector writes nothing at all to standard error
(and returns no choice), contradicting the claim that an out-of-range
index is reported to standard error. -/
theorem select_out_of_range_silent :
    (select_from_list ["a".toList, "b".toList] ["5".toList]).2.2 = [] ∧
    (select_from_list ["a".toList, "b".toList] ["5".toList]).1 = none := by
  constructor
  · decide
  · decide

/-- Claim C7 (amended): the selection loop prints one re-prompt per input
line with no retry limit and never returns a selection or terminates; the
standard-error trace consists of exactly the parse errors of the input
lines, so a parse failure is reported to standard error while an
out-of-range (or any in-range) parsed index is silently re-prompted. -/
theorem select_errors_characterization (choices inputs : List (List Char)) :
    select_from_list choices inputs =
      (none, menuLines choices ++ inputs.map (fun _ => promptLine),
        inputs.filterMap errOf) := by
  simp [select_from_list, List.drop_length, selectLoop_nil]

/-- Claim C8: on a supported platform, whenever the browser command spawns
and exits with any status `st` whatsoever, `open_url` returns `ok st`
(success), and `main` (which never inspects the returned status) exits
with code zero. -/
theorem exit_zero_regardless_of_browser_status
    (out u os : List Char) (enum : Finset (List Char) → List (List Char))
    (inputs : List (List Char)) (env : Option (List Char)) (st : Nat)
    (spawn : List Char → List Char → Except (List Char) Nat)
    (hos : os = "macos".toList ∨ os = "linux".toList)
    (henum : enum (urls_from_output out) = [u])
    (hspawn : ∀ cmd arg, spawn cmd arg = Except.ok st) :
    open_url os env spawn (format_url u) = OpenResult.ok st ∧
    main_model (Except.ok out) enum inputs os env spawn = MainOutcome.success ∧
    MainOutcome.exitCode MainOutcome.success = some 0 := by
  have hopen : ∀ url, open_url os env spawn url = OpenResult.ok st := by
    intro url
    rcases hos with h | h
    · subst h
      rw [open_url, if_pos rfl, hspawn]
    · subst h
      rw [open_url, if_neg (by decide), if_pos rfl, hspawn]
  refine ⟨hopen _, ?_, rfl⟩
  simp [main_model, henum, choose_remote_url, hopen]

/-- Witness for claim C8's theorem: on `linux` with a spawn that reports
the browser exiting with the non-zero status 7, `open_url` still returns
`ok 7` and the modelled `main` still exits 0. -/
theorem exit_zero_regardless_of_browser_status_witness :
    open_url ("linux".toList) none (fun _ _ => Except.ok 7)
        (format_url ("git@gh.io:o/r.git".toList)) = OpenResult.ok 7 ∧
    main_model (Except.ok ("origin git@gh.io:o/r.git (fetch)".toList))
        (fun _ => ["git@gh.io:o/r.git".toList]) [] ("linux".toList) none
        (fun _ _ => Except.ok 7) = MainOutcome.success ∧
    MainOutcome.exitCode MainOutcome.success = some 0 :=
  exit_zero_regardless_of_browser_status
    ("origin git@gh.io:o/r.git (fetch)".toList) ("git@gh.io:o/r.git".toList)
    ("linux".toList) (fun _ => ["git@gh.io:o/r.git".toList]) [] none 7
    (fun _ _ => Except.ok 7) (Or.inr rfl) rfl (fun _ _ => rfl)

/-- Claim C9: on any platform other than macos and linux, `open_url`
panics (fails loudly) with the fixed, non-empty `unimplemented!` message
rather than silently doing nothing, and the modelled `main` terminates as
a panic with exit code 101, which is non-zero. -/
theorem unsupported_platform_fails_loudly
    (os url out u : List Char) (env : Option (List Char))
    (enum : Finset (List Char) → List (List Char)) (inputs : List (List Char))
    (spawn : List Char → List Char → Except (List Char) Nat)
    (h1 : ¬ os = "macos".toList) (h2 : ¬ os = "linux".toList)
    (henum : enum (urls_from_output out) = [u]) :
    open_url os env spawn url = OpenResult.panicked unimplementedMsg ∧
    main_model (Except.ok out) enum inputs os env spawn =
      MainOutcome.panicked unimplementedMsg ∧
    unimplementedMsg ≠ [] ∧
    MainOutcome.exitCode (MainOutcome.panicked unimplementedMsg) = some 101 := by
  have hopen : ∀ u', open_url os env spawn u' = OpenResult.panicked unimplementedMsg := by
    intro u'
    rw [open_url, if_neg h1, if_neg h2]
  refine ⟨hopen _, ?_, by decide, rfl⟩
  simp [main_model, henum, choose_remote_url, hopen]

/-- Witness for claim C9's theorem: on `windows` the launch panics with the
fixed message, and the modelled `main` run on a single-remote repository
ends as a panic with exit code 101. -/
theorem unsupported_platform_fails_loudly_witness :
    open_url ("windows".toList) none (fun _ _ => Except.ok 0)
        ("https://gh.io/o/r.git".toList) = OpenResult.panicked unimplementedMsg ∧
    main_model (Except.ok ("origin git@gh.io:o/r.git (fetch)".toList))
        (fun _ => ["git@gh.io:o/r.git".toList]) [] ("windows".toList) none
        (fun _ _ => Except.ok 0) = MainOutcome.panicked unimplementedMsg ∧
    unimplementedMsg ≠ [] ∧
    MainOutcome.exitCode (MainOutcome.panicked unimplementedMsg) = some 101 :=
  unsupported_platform_fails_loudly ("windows".toList)
    ("https://gh.io/o/r.git".toList) ("origin git@gh.io:o/r.git (fetch)".toList)
    ("git@gh.io:o/r.git".toList) none (fun _ => ["git@gh.io:o/r.git".toList]) []
    (fun _ _ => Except.ok 0) (by decide) (by decide) rfl
